import Mathlib

/-!
A verification development for the solqc quality-control library
(`solqc/bioforskstation.py`).  The hourly observation series is embedded as a
list of rows; pandas/numpy operations are translated to executable Lean
functions over `ℚ` with `Option ℚ` for missing (NaN) measured values and a
small IEEE-style extended value type where genuine float infinities matter
(the Difference rule divides by TOA without a guard).
-/

set_option maxRecDepth 4000

/-- One row of the aligned hourly series: the timestamp's calendar fields and
the columns `qo` (measured global irradiance, `none` = NaN), `toa`
(top-of-atmosphere irradiance), `sza` (solar zenith angle) and `clear_sky`
(clear-sky model irradiance).  Numeric columns other than `qo` come from
complete model files and are plain rationals. -/
structure Row where
  year : Nat
  month : Nat
  day : Nat
  hour : Nat
  qo : Option ℚ
  toa : ℚ
  sza : ℚ
  clear_sky : ℚ
deriving DecidableEq, Repr

instance : Inhabited Row :=
  ⟨{ year := 0, month := 1, day := 1, hour := 0, qo := none,
     toa := 0, sza := 0, clear_sky := 0 }⟩

/-- Pandas comparison `qo > c`: a NaN (missing) measured value compares false. -/
def qoGt (o : Option ℚ) (c : ℚ) : Bool :=
  match o with
  | some q => decide (c < q)
  | none => false

/-- Pandas comparison `qo < c`: a NaN (missing) measured value compares false. -/
def qoLt (o : Option ℚ) (c : ℚ) : Bool :=
  match o with
  | some q => decide (q < c)
  | none => false

/-- `zero_out`: set `qo` to 0 wherever `toa == 0` or `qo < 0`
(source lines 155-162).  Note the condition `toa == 0` does not look at `qo`,
so a NaN measured value at a TOA-zero timestamp is also overwritten with 0. -/
def zeroOut (s : List Row) : List Row :=
  s.map fun r => if decide (r.toa = 0) || qoLt r.qo 0 then { r with qo := some 0 } else r

/-- `flag_offset`: `((qo > 6) & (sza > 93)) | (qo < -12)` (source lines 240-249). -/
def flagOffset (s : List Row) : List Bool :=
  s.map fun r => (qoGt r.qo 6 && decide (93 < r.sza)) || qoLt r.qo (-12)

/-- `flag_U1`: `qo > toa` (source lines 251-261). -/
def flagU1 (s : List Row) : List Bool :=
  s.map fun r => qoGt r.qo r.toa

/-- `flag_U2`: `((qo > 1.1*clear_sky) & (sza < 88)) | ((qo > 2*clear_sky) & (sza >= 88))`
(source lines 263-274). -/
def flagU2 (s : List Row) : List Bool :=
  s.map fun r =>
    (qoGt r.qo (11 / 10 * r.clear_sky) && decide (r.sza < 88)) ||
      (qoGt r.qo (2 * r.clear_sky) && decide (88 ≤ r.sza))

/-- `flag_L2`: `(qo < 1e-4 * (80 - sza) * toa) & (sza <= 80)` (source lines 294-306). -/
def flagL2 (s : List Row) : List Bool :=
  s.map fun r => qoLt r.qo (1 / 10000 * (80 - r.sza) * r.toa) && decide (r.sza ≤ 80)

/-- `missing_values`: flag where `qo` is null (source lines 345-353). -/
def flagMissing (s : List Row) : List Bool :=
  s.map fun r => r.qo.isNone

/-- The clearness ratios `qo / toa` of one calendar-day group, as used by
`flag_L1` and `flag_consistency` (source lines 283-287 and 333-338): the
series is first restricted to `toa > 0` rows (`sunlight`), grouped by the
composite key `[day, month, year]`, and pandas `mean`/`std` skip NaN entries,
so rows with a null `qo` drop out of the aggregates. -/
def dayRatios (s : List Row) (y m d : Nat) : List ℚ :=
  (s.filter fun r =>
      decide (0 < r.toa) && (r.year == y) && (r.month == m) && (r.day == d)).filterMap
    fun r => r.qo.map fun q => q / r.toa

/-- The pandas group `mean` of a calendar day's clearness ratios: NaN (`none`)
when the group has no non-null ratio. -/
def dayMean (s : List Row) (y m d : Nat) : Option ℚ :=
  let v := dayRatios s y m d
  if v.length = 0 then none else some (v.sum / v.length)

/-- The pandas group sample variance (`std` squared, `ddof = 1`) of a calendar
day's clearness ratios: NaN (`none`) when fewer than two non-null ratios
exist.  The source compares the standard deviation; statements below compare
the variance against squared thresholds, which is equivalent because
`std ≥ 0` gives `std < t ↔ 0 < t ∧ std^2 < t^2` and `std > t ↔ std^2 > t^2`
for `t ≥ 0`. -/
def dayVar (s : List Row) (y m d : Nat) : Option ℚ :=
  let v := dayRatios s y m d
  match dayMean s y m d with
  | none => none
  | some mu =>
      if v.length < 2 then none
      else some (((v.map fun x => (x - mu) ^ 2).sum) / ((v.length - 1 : Nat) : ℚ))

/-- `flag_L1` (source lines 276-292): the transform broadcasts the day's mean
ratio to every sunlight row of the day (including rows whose own `qo` is
null), the flag condition is `day_mean < 0.03`, and the final mask is
`sunlight & flag`, so non-sunlight rows stay false.  A NaN mean (day with no
non-null ratio) compares false. -/
def flagL1 (s : List Row) : List Bool :=
  s.map fun r =>
    decide ((0:ℚ) < r.toa) &&
      (match dayMean s r.year r.month r.day with
       | some m => decide (m < 3 / 100)
       | none => false)

/-- The `flag_consistency` day test `(std < 1/16 * mean) | (std > 0.80)`
expressed on the variance: `std < mean/16 ↔ 0 < mean ∧ 256 * var < mean^2`
and `std > 4/5 ↔ var > 16/25` (both sides nonnegative). -/
def consistencyTest (m v : ℚ) : Bool :=
  (decide (0 < m) && decide (256 * v < m ^ 2)) || decide (16 / 25 < v)

/-- `flag_consistency` (source lines 327-343): like `flag_L1` but testing the
day's mean and (sample) standard deviation of the clearness ratio; a NaN mean
or NaN std makes the comparison false. -/
def flagConsistency (s : List Row) : List Bool :=
  s.map fun r =>
    decide ((0:ℚ) < r.toa) &&
      (match dayMean s r.year r.month r.day, dayVar s r.year r.month r.day with
       | some m, some v => consistencyTest m v
       | _, _ => false)

/-- IEEE-style float value for the unguarded numpy division in
`flag_difference`: `qo / toa` with `toa = 0` yields `+inf`/`-inf`/`NaN`. -/
inductive F64 where
  | nan : F64
  | pinf : F64
  | ninf : F64
  | fin : ℚ → F64
deriving DecidableEq, Repr

/-- Numpy elementwise `qo / toa` (source line 318): NaN `qo` gives NaN;
division by zero gives a signed infinity (or NaN for `0/0`). -/
def fdivOpt (o : Option ℚ) (t : ℚ) : F64 :=
  match o with
  | none => .nan
  | some q =>
      if t = 0 then (if 0 < q then .pinf else if q < 0 then .ninf else .nan)
      else .fin (q / t)

/-- IEEE subtraction on the extended values. -/
def fsub : F64 → F64 → F64
  | .nan, _ => .nan
  | _, .nan => .nan
  | .pinf, .pinf => .nan
  | .pinf, _ => .pinf
  | .ninf, .ninf => .nan
  | .ninf, _ => .ninf
  | .fin _, .pinf => .ninf
  | .fin _, .ninf => .pinf
  | .fin a, .fin b => .fin (a - b)

/-- IEEE absolute value on the extended values. -/
def fabs : F64 → F64
  | .nan => .nan
  | .pinf => .pinf
  | .ninf => .pinf
  | .fin q => .fin (if q < 0 then -q else q)

/-- Numpy comparison `d >= 0.75`: NaN compares false, `+inf` compares true. -/
def fge34 : F64 → Bool
  | .nan => false
  | .pinf => true
  | .ninf => false
  | .fin q => decide (3 / 4 ≤ q)

/-- The `difference_qo` array of `flag_difference` (source lines 320-323):
entry 0 is set to 0 and entry `i+1` is `|ratio[i+1] - ratio[i]|`. -/
def diffList (rs : List F64) : List F64 :=
  match rs with
  | [] => []
  | a :: t => F64.fin 0 :: List.zipWith (fun prev next => fabs (fsub next prev)) (a :: t) t

/-- `flag_difference` (source lines 308-325): `(difference_qo >= 0.75) & (sza < 80)`,
where `relative_qo = qo / toa` is computed at every timestamp with no guard
against `toa = 0`. -/
def flagDifference (s : List Row) : List Bool :=
  List.zipWith (fun d r => fge34 d && decide (r.sza < 80))
    (diffList (s.map fun r => fdivOpt r.qo r.toa)) s

/-- The eight QC rules; the Flag Table maps each rule name to its boolean
column (spec data model: "for each timestamp, a mapping from rule-name to
boolean"). -/
inductive Rule where
  | offset : Rule
  | u1 : Rule
  | u2 : Rule
  | l1 : Rule
  | l2 : Rule
  | difference : Rule
  | consistency : Rule
  | missing : Rule
deriving DecidableEq, Repr

/-- The column each rule computes from the series; every `flag_*` method reads
`self.data` only and writes only its own column. -/
def colOf (s : List Row) : Rule → List Bool
  | .offset => flagOffset s
  | .u1 => flagU1 s
  | .u2 => flagU2 s
  | .l1 => flagL1 s
  | .l2 => flagL2 s
  | .difference => flagDifference s
  | .consistency => flagConsistency s
  | .missing => flagMissing s

/-- The Flag Table as a mapping from rule name to its column, `none` while the
rule has not been run yet (`self.flags` starts with no columns). -/
abbrev FlagMap := Rule → Option (List Bool)

/-- Running one `flag_*` method: overwrite that rule's column, leave others. -/
def applyRule (s : List Row) (r : Rule) (t : FlagMap) : FlagMap :=
  fun x => if x = r then some (colOf s r) else t x

/-- Running a sequence of `flag_*` methods in the given order. -/
def runRules (s : List Row) (l : List Rule) (t : FlagMap) : FlagMap :=
  l.foldl (fun t r => applyRule s r t) t

/-- A fully populated Flag Table is a total map from rule to column; the
Average-Year Builder and the Summary Reporter read it this way. -/
abbrev FlagTable := Rule → List Bool

/-- `self.flags.drop(['Offset', 'Consistency'], axis=1).any(axis=1)` at row
`i`: flagged by at least one rule other than Offset and Consistency. -/
def anyExceptOffCons (F : FlagTable) (i : Nat) : Bool :=
  (F .u1).getD i false || (F .u2).getD i false || (F .l1).getD i false ||
    (F .l2).getD i false || (F .difference).getD i false || (F .missing).getD i false

/-- `self.flags.loc[:, ['Offset', 'Consistency']].any(axis=1)` at row `i`. -/
def offsetOrCons (F : FlagTable) (i : Nat) : Bool :=
  (F .offset).getD i false || (F .consistency).getD i false

/-- Indices of the daytime timestamps (`self.data['toa'] > 0`). -/
def daytimeIdx (s : List Row) : List Nat :=
  (List.range s.length).filter fun i => decide ((0:ℚ) < (s.getD i default).toa)

/-- `get_pesd` (source lines 414-417): mean over the daytime rows of the
boolean "any rule except Offset/Consistency", times 100.  The pandas mean of
an empty selection is NaN (`none`). -/
def getPesd (s : List Row) (F : FlagTable) : Option ℚ :=
  let idx := daytimeIdx s
  if idx.length = 0 then none
  else some ((((idx.filter (anyExceptOffCons F)).length : ℚ) / (idx.length : ℚ)) * 100)

/-- `get_visual` (source lines 419-425): mean over all rows of the boolean
"Offset or Consistency", times 100. -/
def getVisual (s : List Row) (F : FlagTable) : Option ℚ :=
  if s.length = 0 then none
  else
    some (((((List.range s.length).filter (offsetOrCons F)).length : ℚ) /
      (s.length : ℚ)) * 100)

/-- Days before month `m` in the synthetic year 2040 (a leap year), matching
`datetime(2040, month, day, hour)` used by `get_average_year`. -/
def cumDays : Nat → Nat
  | 1 => 0
  | 2 => 31
  | 3 => 60
  | 4 => 91
  | 5 => 121
  | 6 => 152
  | 7 => 182
  | 8 => 213
  | 9 => 244
  | 10 => 274
  | 11 => 305
  | 12 => 335
  | _ => 0

/-- Length of month `m` in 2040. -/
def daysInMonth : Nat → Nat
  | 1 => 31
  | 2 => 29
  | 3 => 31
  | 4 => 30
  | 5 => 31
  | 6 => 30
  | 7 => 31
  | 8 => 31
  | 9 => 30
  | 10 => 31
  | 11 => 30
  | 12 => 31
  | _ => 0

/-- Hour-of-synthetic-year of a row's `(month, day, hour)` key: the position of
`datetime(2040, month, day, hour)` on the hourly timeline starting at
2040-01-01 00:00.  For valid calendar fields (the only ones `datetime`
accepts) this encoding of the group key is injective. -/
def ordOf (r : Row) : Nat :=
  (cumDays r.month + (r.day - 1)) * 24 + r.hour

/-- Valid calendar fields, i.e. those `datetime(2040, month, day, hour)`
accepts. -/
def validRow (r : Row) : Prop :=
  1 ≤ r.month ∧ r.month ≤ 12 ∧ 1 ≤ r.day ∧ r.day ≤ daysInMonth r.month ∧ r.hour ≤ 23

instance (r : Row) : Decidable (validRow r) := by
  unfold validRow
  infer_instance

/-- Chronological key of a full timestamp, used for the inclusive
`df.loc[start:end]` slices of the Visual-Control Exclusion List; for calendar
data it is strictly monotone in (year, month, day, hour). -/
def dtKey (r : Row) : Nat :=
  ((r.year * 100 + r.month) * 100 + r.day) * 100 + r.hour

/-- Membership of a row in some inclusive visual-control range. -/
def inAnyRange (ranges : List (Nat × Nat)) (r : Row) : Bool :=
  ranges.any fun p => decide (p.1 ≤ dtKey r) && decide (dtKey r ≤ p.2)

/-- The quality-control step of `get_average_year` (source lines 383-390): a
copy of the `qo` column where every row flagged by a rule other than Offset
and Consistency, and every row inside a visual-control range, is set to NaN.
The date-range restriction defaults to the whole series, as modelled here. -/
def qcSeries (qc : Bool) (F : FlagTable) (ranges : List (Nat × Nat))
    (s : List Row) : List (Option ℚ) :=
  List.zipWith
    (fun i r =>
      if qc && (anyExceptOffCons F i || inAnyRange ranges r) then none else r.qo)
    (List.range s.length) s

/-- `np.nanmean`: the mean of the non-NaN entries, NaN when there are none. -/
def nanmeanOpt (l : List (Option ℚ)) : Option ℚ :=
  let xs := l.filterMap id
  if xs.length = 0 then none else some (xs.sum / (xs.length : ℚ))

/-- First element of the `(min, max)` hourly span of the synthetic-year index:
the smallest hour-of-year key present in the series (`asfreq` reindexes from
the index minimum).  The fold's initial value 8784 exceeds every valid key, so
it is neutral on any non-empty valid series. -/
def minOrd (s : List Row) : Nat :=
  (s.map ordOf).foldr min 8784

/-- Largest hour-of-year key present in the series; initial value 0 is neutral. -/
def maxOrd (s : List Row) : Nat :=
  (s.map ordOf).foldr max 0

/-- The hourly synthetic-year grid produced by `asfreq('H')`: every hour-of-year
slot from the smallest present key to the largest. -/
def grid (s : List Row) : List Nat :=
  List.range' (minOrd s) (maxOrd s + 1 - minOrd s)

/-- The group mean for slot `k`: `np.nanmean` of the quality-controlled values
of all rows whose `(month, day, hour)` key maps to hour-of-year `k`
(`groupby([month, day, hour]).aggregate(lambda x: np.nanmean(x))`); slots with
no group rows are the NaN holes `asfreq` inserts. -/
def slotAt (sv : List (Row × Option ℚ)) (k : Nat) : Option ℚ :=
  nanmeanOpt ((sv.filter fun p => ordOf p.1 == k).map Prod.snd)

/-- The slot means over the whole grid, in chronological order. -/
def slotVals (qc : Bool) (F : FlagTable) (ranges : List (Nat × Nat))
    (s : List Row) : List (Option ℚ) :=
  (grid s).map (slotAt (s.zip (qcSeries qc F ranges s)))

/-- `fillna(method='ffill')`: each NaN becomes the nearest preceding non-NaN
value (carried in `acc`), or stays NaN if there is none. -/
def ffillAux (acc : Option ℚ) : List (Option ℚ) → List (Option ℚ)
  | [] => []
  | v :: t =>
      match v with
      | some q => some q :: ffillAux (some q) t
      | none => acc :: ffillAux acc t

/-- Forward fill of a column. -/
def ffill (l : List (Option ℚ)) : List (Option ℚ) :=
  ffillAux none l

/-- `fillna(method='bfill')`: each NaN becomes the nearest following non-NaN
value, or stays NaN if there is none. -/
def bfill : List (Option ℚ) → List (Option ℚ)
  | [] => []
  | v :: t =>
      (match v with
       | some q => some q
       | none => (bfill t).headD none) :: bfill t

/-- The gap-fill stage of `get_average_year` (source lines 399-405): columns
`qo`, `ffill`, `bfill` side by side, then `mean(axis=1)`, the row-wise mean of
the non-NaN entries. -/
def gapFill (l : List (Option ℚ)) : List (Option ℚ) :=
  (List.range l.length).map fun i =>
    nanmeanOpt [l.getD i none, (ffill l).getD i none, (bfill l).getD i none]

/-- The averaged-and-filled synthetic-year values of the builder. -/
def avgVals (qc : Bool) (F : FlagTable) (ranges : List (Nat × Nat))
    (s : List Row) : List (Option ℚ) :=
  gapFill (slotVals qc F ranges s)

/-- Hour-of-year keys of 2040-02-29 are 1416..1439 (Feb 28 23:00 is 1415 and
Mar 1 00:00 is 1440). -/
def isFeb29 (k : Nat) : Bool :=
  decide (1416 ≤ k) && decide (k < 1440)

/-- `get_average_year` (source lines 355-412): quality control, hour-of-year
grouping, `asfreq` gridding, neighbour gap-fill, and the optional removal of
the 2040-02-29 rows; returns the synthetic-year series as (hour-of-year key,
value) pairs in index order. -/
def getAverageYear (qc : Bool) (F : FlagTable) (ranges : List (Nat × Nat))
    (leapDay : Bool) (s : List Row) : List (Nat × Option ℚ) :=
  let pairs := (grid s).zip (avgVals qc F ranges s)
  if leapDay then pairs else pairs.filter fun p => !isFeb29 p.1

/-- The synthetic-year index of the builder's output. -/
def avgKeys (qc : Bool) (F : FlagTable) (ranges : List (Nat × Nat))
    (leapDay : Bool) (s : List Row) : List Nat :=
  (getAverageYear qc F ranges leapDay s).map Prod.fst

/-- Modelled from the spec's gap-fill wording, for comparison with the code's
`ffill` column: the value of the nearest preceding non-null slot. -/
def lastSome (l : List (Option ℚ)) : Option ℚ :=
  (l.filterMap id).getLast?

/-- Modelled from the spec's gap-fill wording, for comparison with the code's
`bfill` column: the value of the nearest following non-null slot. -/
def firstSome (l : List (Option ℚ)) : Option ℚ :=
  (l.filterMap id).head?

/-- Modelled from the spec's gap-fill wording: mean of the two one-sided fill
values, one alone if only one exists, null if neither exists. -/
def combineNeighbors : Option ℚ → Option ℚ → Option ℚ
  | some a, some b => some ((a + b) / 2)
  | some a, none => some a
  | none, some b => some b
  | none, none => none

/-- A single calendar day (2000-01-01): a night hour, two daytime hours with
clearness ratio 1/100, and a daytime hour with a missing measurement. -/
def demoDay : List Row :=
  [{ year := 2000, month := 1, day := 1, hour := 0, qo := some 0, toa := 0,
     sza := 95, clear_sky := 0 },
   { year := 2000, month := 1, day := 1, hour := 1, qo := some 1, toa := 100,
     sza := 50, clear_sky := 1000 },
   { year := 2000, month := 1, day := 1, hour := 2, qo := some 1, toa := 100,
     sza := 50, clear_sky := 1000 },
   { year := 2000, month := 1, day := 1, hour := 3, qo := none, toa := 100,
     sza := 50, clear_sky := 1000 }]

/-- Two consecutive daytime hours where the first has `toa = 0` but a positive
measured value, so the numpy ratio at hour 0 is `+inf`. -/
def demoDiv : List Row :=
  [{ year := 2000, month := 1, day := 2, hour := 0, qo := some 10, toa := 0,
     sza := 50, clear_sky := 1000 },
   { year := 2000, month := 1, day := 2, hour := 1, qo := some 50, toa := 100,
     sza := 50, clear_sky := 1000 }]

/-- The same two hours with a nonzero `toa` at hour 0: the ratio step is
`|1/2 - 1/10| = 2/5 < 3/4`. -/
def demoDivB : List Row :=
  [{ year := 2000, month := 1, day := 2, hour := 0, qo := some 10, toa := 100,
     sza := 50, clear_sky := 1000 },
   { year := 2000, month := 1, day := 2, hour := 1, qo := some 50, toa := 100,
     sza := 50, clear_sky := 1000 }]

/-- The spec's Zero-out scenario: measured 10, TOA 0, zenith 95°. -/
def scenZero : List Row :=
  [{ year := 2000, month := 6, day := 1, hour := 12, qo := some 10, toa := 0,
     sza := 95, clear_sky := 1000 }]

/-- A nighttime missing observation: `qo` null and `toa = 0`. -/
def demoNight : List Row :=
  [{ year := 2000, month := 1, day := 1, hour := 0, qo := none, toa := 0,
     sza := 95, clear_sky := 0 }]

/-- A series containing the first and the last hour-of-year key (in different
years), so its synthetic-year grid spans all 8784 slots. -/
def demoSpan : List Row :=
  [{ year := 2000, month := 1, day := 1, hour := 0, qo := some 1, toa := 100,
     sza := 50, clear_sky := 1000 },
   { year := 2001, month := 12, day := 31, hour := 23, qo := some 2, toa := 100,
     sza := 50, clear_sky := 1000 }]

/-- Three hour-of-year slots where the middle one has no valid observation:
forward fill 2/5, backward fill 3/5. -/
def demoGap : List Row :=
  [{ year := 2000, month := 1, day := 1, hour := 0, qo := some (2/5), toa := 100,
     sza := 50, clear_sky := 1000 },
   { year := 2000, month := 1, day := 1, hour := 1, qo := none, toa := 100,
     sza := 50, clear_sky := 1000 },
   { year := 2000, month := 1, day := 1, hour := 2, qo := some (3/5), toa := 100,
     sza := 50, clear_sky := 1000 }]

/-- A two-row series and an explicit Flag Table for the quality-control step:
row 0 is flagged only by Offset and Consistency, row 1 only by U1. -/
def demoQC : List Row :=
  [{ year := 2000, month := 3, day := 1, hour := 10, qo := some 5, toa := 100,
     sza := 50, clear_sky := 1000 },
   { year := 2000, month := 3, day := 1, hour := 11, qo := some 7, toa := 100,
     sza := 50, clear_sky := 1000 }]

/-- The explicit Flag Table paired with `demoQC`. -/
def tableQC : FlagTable := fun r =>
  match r with
  | .offset => [true, false]
  | .consistency => [true, false]
  | .u1 => [false, true]
  | _ => [false, false]

/-- The eight rules in the order the example pipeline runs them. -/
def ruleList : List Rule :=
  [.offset, .u1, .u2, .l1, .l2, .difference, .consistency, .missing]

/-- The empty Flag Table (`self.flags` before any rule has run). -/
def emptyTable : FlagMap := fun _ => none

/-! ### Generic helper lemmas -/

theorem getD_map_default {β : Type} (f : Row → β) (s : List Row) (i : Nat)
    (hi : i < s.length) (d : β) : (s.map f).getD i d = f (s.getD i default) := by
  rw [List.getD_eq_getElem (s.map f) d (by simpa using hi), List.getElem_map,
    List.getD_eq_getElem s default hi]

theorem zeroOut_length (s : List Row) : (zeroOut s).length = s.length := by
  simp [zeroOut]

theorem zeroOut_getD (s : List Row) (i : Nat) (hi : i < s.length) :
    (zeroOut s).getD i default =
      if decide ((s.getD i default).toa = 0) || qoLt (s.getD i default).qo 0 then
        { s.getD i default with qo := some 0 }
      else s.getD i default := by
  unfold zeroOut
  rw [getD_map_default _ s i hi]

theorem zeroOut_qo_of_toa_zero (s : List Row) (i : Nat) (hi : i < s.length)
    (htoa : (s.getD i default).toa = 0) : ((zeroOut s).getD i default).qo = some 0 := by
  rw [zeroOut_getD s i hi]
  set u := s.getD i default with hu
  simp [htoa]

theorem flagMissing_getD (s : List Row) (i : Nat) (hi : i < s.length) :
    (flagMissing s).getD i false = ((s.getD i default).qo).isNone := by
  unfold flagMissing
  rw [getD_map_default _ s i hi]

/-! ### Claim C7 -/

/-- Claim C7: Zero-out sets measured irradiance to 0 exactly where TOA is 0 or
the measured value is negative and leaves every other row unchanged, so after
Zero-out a TOA-zero timestamp carries measured value 0 (in particular 0 or
null, never negative); on the scenario row (measured 10, TOA 0, zenith 95°)
the value becomes 0 and the Offset flag is false. -/
theorem c7_zero_out_exact (s : List Row) (i : Nat) (hi : i < s.length) :
    (((s.getD i default).toa = 0 ∨ qoLt (s.getD i default).qo 0 = true) →
        ((zeroOut s).getD i default).qo = some 0)
    ∧ ((s.getD i default).toa ≠ 0 → qoLt (s.getD i default).qo 0 = false →
        (zeroOut s).getD i default = s.getD i default)
    ∧ ((s.getD i default).toa = 0 →
        (((zeroOut s).getD i default).qo = some 0 ∨ ((zeroOut s).getD i default).qo = none)
          ∧ qoLt ((zeroOut s).getD i default).qo 0 = false)
    ∧ (zeroOut scenZero).map (fun r => r.qo) = [some 0]
    ∧ flagOffset (zeroOut scenZero) = [false] := by
  refine ⟨?_, ?_, ?_, ?_, ?_⟩
  · intro h
    rw [zeroOut_getD s i hi]
    set u := s.getD i default with hu
    rcases h with h | h
    · simp [h]
    · simp [h]
  · intro h1 h2
    rw [zeroOut_getD s i hi]
    set u := s.getD i default with hu
    simp [h1, h2]
  · intro h
    refine ⟨Or.inl (zeroOut_qo_of_toa_zero s i hi h), ?_⟩
    rw [zeroOut_qo_of_toa_zero s i hi h]
    simp [qoLt]
  · norm_num [zeroOut, scenZero, qoLt]
  · norm_num [flagOffset, zeroOut, scenZero, qoGt, qoLt]

/-- Witness for C7 at the scenario row. -/
theorem c7_zero_out_exact_witness :
    0 < scenZero.length ∧
      ((scenZero.getD 0 default).toa = 0 ∨ qoLt (scenZero.getD 0 default).qo 0 = true →
        ((zeroOut scenZero).getD 0 default).qo = some 0) :=
  ⟨by simp [scenZero], (c7_zero_out_exact scenZero 0 (by simp [scenZero])).1⟩

/-! ### Claim C10 -/

/-- Claim C10: Zero-out turns a null measured value into a real 0 wherever
TOA = 0, so a nighttime missing observation stops being flagged by the Missing
values rule once Zero-out has run first: the Flag Table depends on the order
of Zero-out relative to the flagging rules (shown concretely for the Missing
values rule on a null night row and for the Offset rule on the scenario row). -/
theorem c10_zero_out_missing_order (s : List Row) (i : Nat) (hi : i < s.length)
    (htoa : (s.getD i default).toa = 0) :
    ((zeroOut s).getD i default).qo = some 0
    ∧ (flagMissing (zeroOut s)).getD i false = false
    ∧ ((s.getD i default).qo = none → (flagMissing s).getD i false = true)
    ∧ flagMissing demoNight = [true]
    ∧ flagMissing (zeroOut demoNight) = [false]
    ∧ flagOffset scenZero = [true]
    ∧ flagOffset (zeroOut scenZero) = [false] := by
  refine ⟨zeroOut_qo_of_toa_zero s i hi htoa, ?_, ?_, rfl, ?_, ?_, ?_⟩
  · rw [flagMissing_getD (zeroOut s) i (by rw [zeroOut_length]; exact hi),
      zeroOut_qo_of_toa_zero s i hi htoa]
    rfl
  · intro h
    rw [flagMissing_getD s i hi, h]
    rfl
  · norm_num [flagMissing, zeroOut, demoNight, qoLt]
  · norm_num [flagOffset, scenZero, qoGt, qoLt]
  · norm_num [flagOffset, zeroOut, scenZero, qoGt, qoLt]

/-- Witness for C10 at the nighttime missing row. -/
theorem c10_zero_out_missing_order_witness :
    (0 < demoNight.length ∧ (demoNight.getD 0 default).toa = 0) ∧
      (flagMissing (zeroOut demoNight)).getD 0 false = false :=
  ⟨⟨by simp [demoNight], by simp [demoNight]⟩,
    (c10_zero_out_missing_order demoNight 0 (by simp [demoNight])
      (by simp [demoNight])).2.1⟩

/-! ### Claim C8 -/

theorem runRules_lookup (s : List Row) (l : List Rule) (t : FlagMap) (x : Rule) :
    runRules s l t x = if x ∈ l then some (colOf s x) else t x := by
  induction l generalizing t with
  | nil => simp [runRules]
  | cons r rest ih =>
    have step : runRules s (r :: rest) t = runRules s rest (applyRule s r t) := rfl
    rw [step, ih]
    by_cases hx : x ∈ rest
    · simp [hx, List.mem_cons]
    · by_cases hxr : x = r
      · subst hxr
        simp [hx, applyRule, List.mem_cons]
      · simp [hx, hxr, applyRule, List.mem_cons]

/-- Claim C8: the final Flag Table does not depend on the order in which the
flagging rules are applied — any permutation of a rule list produces the same
table, and re-running a rule list on an already-flagged table reproduces it —
because each rule reads only the series and writes only its own column. -/
theorem c8_rule_order_independent (s : List Row) (l₁ l₂ : List Rule) (t : FlagMap)
    (hp : l₁.Perm l₂) :
    runRules s l₁ t = runRules s l₂ t
    ∧ runRules s l₁ (runRules s l₁ t) = runRules s l₁ t := by
  constructor
  · funext x
    rw [runRules_lookup, runRules_lookup]
    simp only [hp.mem_iff]
  · funext x
    rw [runRules_lookup, runRules_lookup]
    by_cases hx : x ∈ l₁ <;> simp [hx]

/-- Witness for C8: the example pipeline's eight rules versus their reverse,
on the concrete demo day, starting from the empty table. -/
theorem c8_rule_order_independent_witness :
    ruleList.Perm ruleList.reverse ∧
      runRules demoDay ruleList emptyTable = runRules demoDay ruleList.reverse emptyTable :=
  ⟨(List.reverse_perm ruleList).symm,
    (c8_rule_order_independent demoDay ruleList ruleList.reverse emptyTable
      (List.reverse_perm ruleList).symm).1⟩

/-! ### Claim C5 -/

theorem qcSeries_length (qc : Bool) (F : FlagTable) (ranges : List (Nat × Nat))
    (s : List Row) : (qcSeries qc F ranges s).length = s.length := by
  simp [qcSeries]

theorem qcSeries_getD (qc : Bool) (F : FlagTable) (ranges : List (Nat × Nat))
    (s : List Row) (i : Nat) (hi : i < s.length) :
    (qcSeries qc F ranges s).getD i none =
      if qc && (anyExceptOffCons F i || inAnyRange ranges (s.getD i default)) then none
      else (s.getD i default).qo := by
  unfold qcSeries
  rw [List.getD_eq_getElem _ _ (by simp [List.length_zipWith]; exact hi),
    List.getElem_zipWith, List.getD_eq_getElem s default hi]
  simp

/-- Claim C5: with quality control enabled, the Average-Year Builder's
quality-control step nulls out exactly the timestamps flagged by at least one
rule other than Offset and Consistency or lying inside a visual-control range
(or already null); a timestamp flagged only by Offset or Consistency and
outside all ranges keeps its measured value. -/
theorem c5_quality_control_step (F : FlagTable) (ranges : List (Nat × Nat))
    (s : List Row) (i : Nat) (hi : i < s.length) :
    ((qcSeries true F ranges s).getD i none = none ↔
      ((s.getD i default).qo = none ∨ anyExceptOffCons F i = true ∨
        inAnyRange ranges (s.getD i default) = true))
    ∧ (anyExceptOffCons F i = false → inAnyRange ranges (s.getD i default) = false →
        (qcSeries true F ranges s).getD i none = (s.getD i default).qo) := by
  rw [qcSeries_getD true F ranges s i hi]
  set u := s.getD i default with hu
  constructor
  · cases hA : anyExceptOffCons F i <;> cases hR : inAnyRange ranges u <;> simp
  · intro hA hR
    simp [hA, hR]

/-- Witness for C5: on the two-row demo with its explicit Flag Table, row 1 is
flagged by U1, hence nulled. -/
theorem c5_quality_control_step_witness :
    (1 < demoQC.length ∧ anyExceptOffCons tableQC 1 = true ∧
        inAnyRange [] (demoQC.getD 1 default) = false) ∧
      ((qcSeries true tableQC [] demoQC).getD 1 none = none ↔
        ((demoQC.getD 1 default).qo = none ∨ anyExceptOffCons tableQC 1 = true ∨
          inAnyRange [] (demoQC.getD 1 default) = true)) :=
  ⟨⟨by simp [demoQC], by simp [anyExceptOffCons, tableQC], by simp [inAnyRange]⟩,
    (c5_quality_control_step tableQC [] demoQC 1 (by simp [demoQC])).1⟩

/-! ### Claim C9 -/

/-- Claim C9: `get_pesd` returns 100 times the fraction of daytime (TOA > 0)
timestamps flagged by at least one rule other than Offset and Consistency, and
`get_visual` returns 100 times the fraction of all timestamps flagged by
Offset or Consistency; `daytimeIdx` contains exactly the indices of rows with
TOA > 0. -/
theorem c9_summary_reporter (s : List Row) (F : FlagTable) (i : Nat)
    (h1 : 0 < (daytimeIdx s).length) (h2 : 0 < s.length) :
    getPesd s F =
      some ((((daytimeIdx s).countP (anyExceptOffCons F) : ℚ) /
        ((daytimeIdx s).length : ℚ)) * 100)
    ∧ getVisual s F =
      some ((((List.range s.length).countP (offsetOrCons F) : ℚ) / (s.length : ℚ)) * 100)
    ∧ (i ∈ daytimeIdx s ↔ i < s.length ∧ 0 < (s.getD i default).toa) := by
  refine ⟨?_, ?_, ?_⟩
  · unfold getPesd
    rw [List.countP_eq_length_filter]
    simp only [if_neg (by omega : ¬ (daytimeIdx s).length = 0)]
  · unfold getVisual
    rw [List.countP_eq_length_filter]
    simp only [if_neg (by omega : ¬ s.length = 0)]
  · unfold daytimeIdx
    simp [List.mem_filter, List.mem_range]

/-- Witness for C9 on the two-row demo and its Flag Table. -/
theorem c9_summary_reporter_witness :
    (0 < (daytimeIdx demoQC).length ∧ 0 < demoQC.length) ∧
      getPesd demoQC tableQC =
        some ((((daytimeIdx demoQC).countP (anyExceptOffCons tableQC) : ℚ) /
          ((daytimeIdx demoQC).length : ℚ)) * 100) :=
  ⟨⟨by norm_num [daytimeIdx, demoQC, List.filter_cons, List.filter_nil, List.range_succ],
      by simp [demoQC]⟩,
    (c9_summary_reporter demoQC tableQC 0
      (by norm_num [daytimeIdx, demoQC, List.filter_cons, List.filter_nil, List.range_succ])
      (by simp [demoQC])).1⟩

/-! ### Claim C1 -/

theorem flagL1_demoDay : flagL1 demoDay = [false, true, true, true] := by
  have h : dayMean demoDay 2000 1 1 = some (1/100) := by
    norm_num [dayMean, dayRatios, demoDay, List.filter, List.filterMap]
  simp only [demoDay] at h
  norm_num [flagL1, demoDay, h]

/-- Claim C1, counterexample: on `demoDay` the hour-3 timestamp has a null
measured value, yet the L1 rule flags it true (the day's mean clearness ratio
1/100 is below 0.03 and the transform broadcasts it to every daytime row of
the day, null or not), contradicting the claim that only the Missing values
rule flags null timestamps. -/
theorem c1_null_flagged_by_L1_counterexample :
    (demoDay.getD 3 default).qo = none ∧ (flagL1 demoDay).getD 3 false = true := by
  refine ⟨rfl, ?_⟩
  rw [flagL1_demoDay]
  rfl

theorem diffList_length (rs : List F64) : (diffList rs).length = rs.length := by
  cases rs with
  | nil => rfl
  | cons a t => simp [diffList, List.length_zipWith]

theorem flagDifference_length (s : List Row) :
    (flagDifference s).length = s.length := by
  simp [flagDifference, List.length_zipWith, diffList_length]

theorem fsub_nan_left (x : F64) : fsub .nan x = .nan := by
  cases x <;> rfl

theorem fsub_nan_right (x : F64) : fsub x .nan = .nan := by
  cases x <;> rfl

theorem diffList_getD_zero (rs : List F64) (h : 0 < rs.length) :
    (diffList rs).getD 0 F64.nan = F64.fin 0 := by
  cases rs with
  | nil => simp at h
  | cons a t => rfl

theorem diffList_getD_succ (rs : List F64) (j : Nat) (h : j + 1 < rs.length) :
    (diffList rs).getD (j + 1) F64.nan =
      fabs (fsub (rs.getD (j + 1) F64.nan) (rs.getD j F64.nan)) := by
  cases rs with
  | nil => simp at h
  | cons a t =>
    have hj : j < t.length := by simpa using h
    have hz : j < (List.zipWith (fun prev next => fabs (fsub next prev)) (a :: t) t).length := by
      simp [List.length_zipWith]
      omega
    have hstep : (diffList (a :: t)).getD (j + 1) F64.nan =
        (List.zipWith (fun prev next => fabs (fsub next prev)) (a :: t) t).getD j F64.nan := by
      show (F64.fin 0 ::
        List.zipWith (fun prev next => fabs (fsub next prev)) (a :: t) t).getD (j + 1) F64.nan = _
      rw [List.getD_cons_succ]
    rw [hstep, List.getD_eq_getElem _ _ hz, List.getElem_zipWith,
      List.getD_eq_getElem _ _ h, List.getD_eq_getElem _ _ (show j < (a :: t).length by omega),
      List.getElem_cons_succ]

theorem ratios_getD (s : List Row) (i : Nat) (hi : i < s.length) :
    (s.map fun r => fdivOpt r.qo r.toa).getD i F64.nan =
      fdivOpt (s.getD i default).qo (s.getD i default).toa :=
  getD_map_default _ s i hi _

theorem flagDifference_getD (s : List Row) (i : Nat) (hi : i < s.length) :
    (flagDifference s).getD i false =
      (fge34 ((diffList (s.map fun r => fdivOpt r.qo r.toa)).getD i F64.nan) &&
        decide ((s.getD i default).sza < 80)) := by
  unfold flagDifference
  have hlen : i < (List.zipWith (fun d r => fge34 d && decide (r.sza < 80))
      (diffList (s.map fun r => fdivOpt r.qo r.toa)) s).length := by
    simp [List.length_zipWith, diffList_length]
    exact hi
  have h1 : i < (diffList (s.map fun r => fdivOpt r.qo r.toa)).length := by
    rw [diffList_length, List.length_map]
    exact hi
  rw [List.getD_eq_getElem _ _ hlen, List.getElem_zipWith,
    ← List.getD_eq_getElem _ F64.nan h1, ← List.getD_eq_getElem s default hi]

/-- Claim C1, amended: a timestamp with a null measured value is never flagged
by the pointwise rules Offset, U1, U2, L2 or Difference (pandas/numpy
comparisons against NaN are false and a NaN ratio never yields a true
difference flag) and is flagged by the Missing values rule; only the
day-aggregated rules L1 and Consistency can flag such a timestamp, as the
counterexample shows. -/
theorem c1_null_rules_amended (s : List Row) (i : Nat) (hi : i < s.length)
    (hq : (s.getD i default).qo = none) :
    (flagOffset s).getD i false = false
    ∧ (flagU1 s).getD i false = false
    ∧ (flagU2 s).getD i false = false
    ∧ (flagL2 s).getD i false = false
    ∧ (flagDifference s).getD i false = false
    ∧ (flagMissing s).getD i false = true := by
  refine ⟨?_, ?_, ?_, ?_, ?_, ?_⟩
  · unfold flagOffset
    rw [getD_map_default _ s i hi]
    set u := s.getD i default with hu
    simp [hq, qoGt, qoLt]
  · unfold flagU1
    rw [getD_map_default _ s i hi]
    set u := s.getD i default with hu
    simp [hq, qoGt]
  · unfold flagU2
    rw [getD_map_default _ s i hi]
    set u := s.getD i default with hu
    simp [hq, qoGt]
  · unfold flagL2
    rw [getD_map_default _ s i hi]
    set u := s.getD i default with hu
    simp [hq, qoLt]
  · rw [flagDifference_getD s i hi]
    cases i with
    | zero =>
      rw [diffList_getD_zero _ (by rw [List.length_map]; exact hi)]
      norm_num [fge34]
    | succ j =>
      rw [diffList_getD_succ _ j (by rw [List.length_map]; exact hi),
        ratios_getD s (j + 1) hi, hq]
      show (fge34 (fabs (fsub F64.nan _)) && _) = false
      rw [fsub_nan_left]
      rfl
  · rw [flagMissing_getD s i hi, hq]
    rfl

/-- Witness for the amended C1 at the null daytime row of `demoDay`. -/
theorem c1_null_rules_amended_witness :
    (3 < demoDay.length ∧ (demoDay.getD 3 default).qo = none) ∧
      (flagMissing demoDay).getD 3 false = true :=
  ⟨⟨by simp [demoDay], rfl⟩,
    (c1_null_rules_amended demoDay 3 (by simp [demoDay]) rfl).2.2.2.2.2⟩

/-! ### Claim C2 -/

theorem dayRatios_cons_irrelevant (r : Row) (s : List Row) (y m d : Nat)
    (hr : r.toa ≤ 0 ∨ r.year ≠ y ∨ r.month ≠ m ∨ r.day ≠ d) :
    dayRatios (r :: s) y m d = dayRatios s y m d := by
  unfold dayRatios
  rw [List.filter_cons]
  have : (decide (0 < r.toa) && (r.year == y) && (r.month == m) && (r.day == d)) = false := by
    rcases hr with h | h | h | h
    · simp [not_lt.mpr h]
    · simp [h]
    · simp [h]
    · simp [h]
  rw [this]
  simp

theorem flagL1_getD_iff (s : List Row) (i : Nat) (hi : i < s.length) :
    ((flagL1 s).getD i false = true ↔
      0 < (s.getD i default).toa ∧
        ∃ m, dayMean s (s.getD i default).year (s.getD i default).month
          (s.getD i default).day = some m ∧ m < 3 / 100) := by
  unfold flagL1
  rw [getD_map_default _ s i hi]
  set u := s.getD i default with hu
  cases hm : dayMean s u.year u.month u.day with
  | none => simp [hm]
  | some m0 => simp [hm]

theorem flagConsistency_getD_iff (s : List Row) (i : Nat) (hi : i < s.length) :
    ((flagConsistency s).getD i false = true ↔
      0 < (s.getD i default).toa ∧
        ∃ m v, dayMean s (s.getD i default).year (s.getD i default).month
            (s.getD i default).day = some m ∧
          dayVar s (s.getD i default).year (s.getD i default).month
            (s.getD i default).day = some v ∧
          consistencyTest m v = true) := by
  unfold flagConsistency
  rw [getD_map_default _ s i hi]
  set u := s.getD i default with hu
  cases hm : dayMean s u.year u.month u.day with
  | none => simp [hm]
  | some m0 =>
    cases hv : dayVar s u.year u.month u.day with
    | none => simp [hm, hv]
    | some v0 => simp [hm, hv]

/-- Claim C2: L1 and Consistency group by the full calendar date — a row with
TOA ≤ 0, or differing in the year, month or day component of the composite
key, leaves a day's ratio list (hence its mean and variance) unchanged — the
flag is true exactly at daytime (TOA > 0) timestamps of a day whose
mean/variance statistics fail the respective test, and every TOA = 0
timestamp keeps a false flag; on the concrete day whose daytime ratios are
all 1/100 < 0.03, L1 flags each daytime hour and no nighttime hour. -/
theorem c2_day_grouping (s : List Row) (i : Nat) (hi : i < s.length) (r : Row)
    (hr : r.toa ≤ 0 ∨ r.year ≠ (s.getD i default).year ∨
      r.month ≠ (s.getD i default).month ∨ r.day ≠ (s.getD i default).day) :
    ((flagL1 s).getD i false = true ↔
      0 < (s.getD i default).toa ∧
        ∃ m, dayMean s (s.getD i default).year (s.getD i default).month
          (s.getD i default).day = some m ∧ m < 3 / 100)
    ∧ ((flagConsistency s).getD i false = true ↔
      0 < (s.getD i default).toa ∧
        ∃ m v, dayMean s (s.getD i default).year (s.getD i default).month
            (s.getD i default).day = some m ∧
          dayVar s (s.getD i default).year (s.getD i default).month
            (s.getD i default).day = some v ∧
          consistencyTest m v = true)
    ∧ ((s.getD i default).toa = 0 →
        (flagL1 s).getD i false = false ∧ (flagConsistency s).getD i false = false)
    ∧ dayRatios (r :: s) (s.getD i default).year (s.getD i default).month
        (s.getD i default).day =
      dayRatios s (s.getD i default).year (s.getD i default).month
        (s.getD i default).day
    ∧ flagL1 demoDay = [false, true, true, true] := by
  refine ⟨flagL1_getD_iff s i hi, flagConsistency_getD_iff s i hi, ?_,
    dayRatios_cons_irrelevant r s _ _ _ hr, flagL1_demoDay⟩
  intro h0
  constructor
  · cases hval : (flagL1 s).getD i false
    · rfl
    · exact absurd (((flagL1_getD_iff s i hi).mp hval).1) (by rw [h0]; exact lt_irrefl 0)
  · cases hval : (flagConsistency s).getD i false
    · rfl
    · exact absurd (((flagConsistency_getD_iff s i hi).mp hval).1) (by rw [h0]; exact lt_irrefl 0)

/-- Witness for C2 at the nighttime hour of `demoDay`, with an extra row that
differs only in the year. -/
theorem c2_day_grouping_witness :
    (0 < demoDay.length ∧
        ({ year := 1999, month := 1, day := 1, hour := 1, qo := some 1, toa := 100,
            sza := 50, clear_sky := 1000 } : Row).year ≠ (demoDay.getD 0 default).year) ∧
      ((demoDay.getD 0 default).toa = 0 →
        (flagL1 demoDay).getD 0 false = false ∧
          (flagConsistency demoDay).getD 0 false = false) :=
  ⟨⟨by simp [demoDay], by simp [demoDay]⟩,
    (c2_day_grouping demoDay 0 (by simp [demoDay])
      { year := 1999, month := 1, day := 1, hour := 1, qo := some 1, toa := 100,
        sza := 50, clear_sky := 1000 }
      (Or.inr (Or.inl (by simp [demoDay])))).2.2.1⟩

/-! ### Claim C6 -/

theorem zeroOut_toa (s : List Row) (i : Nat) (hi : i < s.length) :
    ((zeroOut s).getD i default).toa = (s.getD i default).toa := by
  rw [zeroOut_getD s i hi]
  by_cases h : (decide ((s.getD i default).toa = 0) || qoLt (s.getD i default).qo 0) = true
  · rw [if_pos h]
  · rw [if_neg h]

theorem zeroOut_ratio_nan (s : List Row) (i : Nat) (hi : i < s.length)
    (htoa : (s.getD i default).toa = 0) :
    ((zeroOut s).map fun r => fdivOpt r.qo r.toa).getD i F64.nan = F64.nan := by
  rw [ratios_getD (zeroOut s) i (by rw [zeroOut_length]; exact hi),
    zeroOut_qo_of_toa_zero s i hi htoa, zeroOut_toa s i hi, htoa]
  norm_num [fdivOpt]

/-- Claim C6, counterexample: in `flag_difference` the ratio measured/TOA is
computed at every timestamp with no TOA = 0 guard; on `demoDiv` the first row
has TOA = 0 with measured 10, the resulting infinite ratio makes the hour-1
difference infinite and the flag true, while the same series with a nonzero
TOA at hour 0 (`demoDivB`) is not flagged — so a division by TOA = 0 does set
a flag true. -/
theorem c6_division_guard_counterexample :
    (demoDiv.getD 0 default).toa = 0
    ∧ flagDifference demoDiv = [false, true]
    ∧ flagDifference demoDivB = [false, false] := by
  refine ⟨rfl, ?_, ?_⟩
  · norm_num [flagDifference, demoDiv, fdivOpt, diffList, fsub, fabs, fge34, List.zipWith]
  · norm_num [flagDifference, demoDivB, fdivOpt, diffList, fsub, fabs, fge34, List.zipWith]

/-- Claim C6, amended: L1 and Consistency exclude TOA = 0 timestamps through
the daylight filter, so their flags are false there; the Difference rule has
no such guard and an infinite ratio from TOA = 0 with positive measured value
can flag the following timestamp (see the counterexample), but once Zero-out
has run (measured := 0 where TOA = 0) the ratio at a TOA = 0 timestamp is NaN
and the Difference flag is false both there and at the following timestamp;
L2 multiplies by TOA instead of dividing. -/
theorem c6_division_guard_amended (s : List Row) (i : Nat) (hi : i < s.length)
    (htoa : (s.getD i default).toa = 0) :
    (flagL1 s).getD i false = false
    ∧ (flagConsistency s).getD i false = false
    ∧ (flagDifference (zeroOut s)).getD i false = false
    ∧ (flagDifference (zeroOut s)).getD (i + 1) false = false := by
  refine ⟨?_, ?_, ?_, ?_⟩
  · cases hval : (flagL1 s).getD i false
    · rfl
    · exact absurd (((flagL1_getD_iff s i hi).mp hval).1) (by rw [htoa]; exact lt_irrefl 0)
  · cases hval : (flagConsistency s).getD i false
    · rfl
    · exact absurd (((flagConsistency_getD_iff s i hi).mp hval).1)
        (by rw [htoa]; exact lt_irrefl 0)
  · have hiz : i < (zeroOut s).length := by rw [zeroOut_length]; exact hi
    rw [flagDifference_getD (zeroOut s) i hiz]
    cases i with
    | zero =>
      rw [diffList_getD_zero _ (by rw [List.length_map]; exact hiz)]
      norm_num [fge34]
    | succ j =>
      rw [diffList_getD_succ _ j (by rw [List.length_map]; exact hiz),
        zeroOut_ratio_nan s (j + 1) hi htoa, fsub_nan_left]
      rfl
  · by_cases hi1 : i + 1 < s.length
    · have hiz : i + 1 < (zeroOut s).length := by rw [zeroOut_length]; exact hi1
      rw [flagDifference_getD (zeroOut s) (i + 1) hiz,
        diffList_getD_succ _ i (by rw [List.length_map]; exact hiz),
        zeroOut_ratio_nan s i hi htoa, fsub_nan_right]
      rfl
    · rw [List.getD_eq_default]
      rw [flagDifference_length, zeroOut_length]
      omega

/-- Witness for the amended C6 at the TOA = 0 hour of `demoDiv`. -/
theorem c6_division_guard_amended_witness :
    (0 < demoDiv.length ∧ (demoDiv.getD 0 default).toa = 0) ∧
      (flagDifference (zeroOut demoDiv)).getD 1 false = false :=
  ⟨⟨by simp [demoDiv], rfl⟩,
    (c6_division_guard_amended demoDiv 0 (by simp [demoDiv]) rfl).2.2.2⟩

/-! ### Claim C4 -/

theorem ffillAux_length (acc : Option ℚ) (l : List (Option ℚ)) :
    (ffillAux acc l).length = l.length := by
  induction l generalizing acc with
  | nil => rfl
  | cons v t ih =>
    cases v <;> simp [ffillAux, ih]

theorem bfill_length (l : List (Option ℚ)) : (bfill l).length = l.length := by
  induction l with
  | nil => rfl
  | cons v t ih => simp [bfill, ih]

theorem lastSome_cons_some (q : ℚ) (xs : List (Option ℚ)) :
    lastSome (some q :: xs) = (lastSome xs).or (some q) := by
  unfold lastSome
  rw [List.filterMap_cons]
  simp only [id]
  rw [List.getLast?_cons]
  cases (List.filterMap id xs).getLast? <;> simp

theorem lastSome_cons_none (xs : List (Option ℚ)) :
    lastSome (none :: xs) = lastSome xs := by
  unfold lastSome
  rw [List.filterMap_cons]
  simp [id]

theorem firstSome_cons_some (q : ℚ) (xs : List (Option ℚ)) :
    firstSome (some q :: xs) = some q := by
  unfold firstSome
  rw [List.filterMap_cons]
  simp [id]

theorem firstSome_cons_none (xs : List (Option ℚ)) :
    firstSome (none :: xs) = firstSome xs := by
  unfold firstSome
  rw [List.filterMap_cons]
  simp [id]

theorem ffillAux_getD (l : List (Option ℚ)) (acc : Option ℚ) (i : Nat)
    (hi : i < l.length) :
    (ffillAux acc l).getD i none = (lastSome (l.take (i + 1))).or acc := by
  induction l generalizing acc i with
  | nil => simp at hi
  | cons v t ih =>
    cases v with
    | none =>
      cases i with
      | zero => simp [ffillAux, lastSome_cons_none, lastSome]
      | succ j =>
        have hj : j < t.length := by simpa using hi
        show (ffillAux acc t).getD j none = _
        rw [ih acc j hj, List.take_succ_cons, lastSome_cons_none]
    | some q =>
      cases i with
      | zero => simp [ffillAux, lastSome_cons_some, lastSome]
      | succ j =>
        have hj : j < t.length := by simpa using hi
        show (ffillAux (some q) t).getD j none = _
        rw [ih (some q) j hj, List.take_succ_cons, lastSome_cons_some,
          Option.or_assoc]
        simp

theorem bfill_getD (l : List (Option ℚ)) (i : Nat) (hi : i < l.length) :
    (bfill l).getD i none = firstSome (l.drop i) := by
  induction l generalizing i with
  | nil => simp at hi
  | cons v t ih =>
    cases i with
    | zero =>
      cases v with
      | some q => simp [bfill, firstSome_cons_some]
      | none =>
        show (bfill t).headD none = _
        rw [List.drop_zero, firstSome_cons_none]
        cases t with
        | nil => rfl
        | cons w t2 =>
          rw [List.headD_eq_head?_getD]
          have h0 : (bfill (w :: t2)).getD 0 none = firstSome ((w :: t2).drop 0) :=
            ih 0 (by simp)
          rw [List.drop_zero] at h0
          rw [← h0]
          cases hb : bfill (w :: t2) with
          | nil => exact absurd (congrArg List.length hb) (by simp [bfill_length])
          | cons b bs => simp
    | succ j =>
      have hj : j < t.length := by simpa using hi
      show (bfill t).getD j none = _
      rw [ih j hj, List.drop_succ_cons]

theorem gapFill_length (l : List (Option ℚ)) : (gapFill l).length = l.length := by
  simp [gapFill]

theorem gapFill_getD (l : List (Option ℚ)) (i : Nat) (hi : i < l.length) :
    (gapFill l).getD i none =
      nanmeanOpt [l.getD i none, (ffill l).getD i none, (bfill l).getD i none] := by
  unfold gapFill
  rw [List.getD_eq_getElem _ _ (by simpa using hi), List.getElem_map,
    List.getElem_range]

theorem lastSome_take_succ_of_none (l : List (Option ℚ)) (i : Nat)
    (hi : i < l.length) (h : l.getD i none = none) :
    lastSome (l.take (i + 1)) = lastSome (l.take i) := by
  have hg : l[i] = none := by rw [← List.getD_eq_getElem l none hi]; exact h
  rw [List.take_succ, List.getElem?_eq_getElem hi, hg]
  unfold lastSome
  rw [List.filterMap_append]
  simp [id]

theorem firstSome_drop_succ_of_none (l : List (Option ℚ)) (i : Nat)
    (hi : i < l.length) (h : l.getD i none = none) :
    firstSome (l.drop i) = firstSome (l.drop (i + 1)) := by
  have hg : l[i] = none := by rw [← List.getD_eq_getElem l none hi]; exact h
  rw [List.drop_eq_getElem_cons hi, hg, firstSome_cons_none]

theorem nanmeanOpt_none_combine (f b : Option ℚ) :
    nanmeanOpt [none, f, b] = combineNeighbors f b := by
  cases f with
  | none =>
    cases b with
    | none => rfl
    | some qb =>
      unfold nanmeanOpt combineNeighbors
      norm_num [List.filterMap_cons]
  | some qf =>
    cases b with
    | none =>
      unfold nanmeanOpt combineNeighbors
      norm_num [List.filterMap_cons]
    | some qb =>
      unfold nanmeanOpt combineNeighbors
      norm_num [List.filterMap_cons]

theorem gapFill_null_char (l : List (Option ℚ)) (i : Nat) (hi : i < l.length)
    (h : l.getD i none = none) :
    (gapFill l).getD i none =
      combineNeighbors (lastSome (l.take i)) (firstSome (l.drop (i + 1))) := by
  rw [gapFill_getD l i hi, h]
  unfold ffill
  rw [ffillAux_getD l none i hi, Option.or_none,
    lastSome_take_succ_of_none l i hi h, bfill_getD l i hi,
    firstSome_drop_succ_of_none l i hi h]
  exact nanmeanOpt_none_combine _ _

/-- Claim C4: in the Average-Year Builder, an hour-of-year slot whose group
has no non-null contribution (slot mean NaN) is filled with the arithmetic
mean of the nearest preceding and nearest following non-null slot values, one
of them alone if only one exists, and stays null if neither exists; in
particular a null slot between fills 2/5 and 3/5 becomes 1/2. -/
theorem c4_gap_fill (qc : Bool) (F : FlagTable) (ranges : List (Nat × Nat))
    (s : List Row) (i : Nat) (hi : i < (slotVals qc F ranges s).length)
    (hnull : (slotVals qc F ranges s).getD i none = none) :
    (avgVals qc F ranges s).getD i none =
      combineNeighbors (lastSome ((slotVals qc F ranges s).take i))
        (firstSome ((slotVals qc F ranges s).drop (i + 1)))
    ∧ gapFill [some (2/5), none, some (3/5)] = [some (2/5), some (1/2), some (3/5)] := by
  constructor
  · exact gapFill_null_char (slotVals qc F ranges s) i hi hnull
  · norm_num [gapFill, ffill, ffillAux, bfill, nanmeanOpt, List.range_succ,
      List.filterMap_cons, List.sum_cons, List.sum_nil]
    simp

/-- Witness for C4 at the empty middle slot of `demoGap`. -/
theorem c4_gap_fill_witness :
    (1 < (slotVals false tableQC [] demoGap).length ∧
        (slotVals false tableQC [] demoGap).getD 1 none = none) ∧
      (avgVals false tableQC [] demoGap).getD 1 none =
        combineNeighbors (lastSome ((slotVals false tableQC [] demoGap).take 1))
          (firstSome ((slotVals false tableQC [] demoGap).drop 2)) := by
  have hv : slotVals false tableQC [] demoGap = [some (2/5), none, some (3/5)] := by
    norm_num [slotVals, slotAt, nanmeanOpt, grid, minOrd, maxOrd, demoGap, qcSeries, ordOf,
      cumDays, List.range_succ, List.range', List.filter_cons, List.filter_nil,
      List.filterMap_cons, List.sum_cons, List.sum_nil]
  refine ⟨⟨by rw [hv]; simp, by rw [hv]; rfl⟩, ?_⟩
  exact (c4_gap_fill false tableQC [] demoGap 1 (by rw [hv]; simp) (by rw [hv]; rfl)).1

/-! ### Claim C3 -/

theorem foldr_min_of_zero_mem (l : List Nat) (init : Nat) (h : 0 ∈ l) :
    l.foldr min init = 0 := by
  induction l with
  | nil => simp at h
  | cons x t ih =>
    rcases List.mem_cons.mp h with hx | hx
    · subst hx
      simp [Nat.zero_min]
    · show min x (t.foldr min init) = 0
      rw [ih hx]
      simp

theorem le_foldr_max (l : List Nat) (a : Nat) (h : a ∈ l) : a ≤ l.foldr max 0 := by
  induction l with
  | nil => simp at h
  | cons x t ih =>
    rcases List.mem_cons.mp h with hx | hx
    · subst hx
      exact Nat.le_max_left _ _
    · exact Nat.le_trans (ih hx) (Nat.le_max_right _ _)

theorem foldr_max_le (l : List Nat) (b : Nat) (h : ∀ x ∈ l, x ≤ b) :
    l.foldr max 0 ≤ b := by
  induction l with
  | nil => exact Nat.zero_le b
  | cons x t ih =>
    show max x (t.foldr max 0) ≤ b
    exact Nat.max_le.mpr ⟨h x (List.mem_cons_self x t), ih fun y hy => h y (List.mem_cons_of_mem x hy)⟩

theorem ordOf_le_of_valid (r : Row) (h : validRow r) : ordOf r ≤ 8783 := by
  obtain ⟨h1, h2, h3, h4, h5⟩ := h
  unfold ordOf
  interval_cases hm : r.month <;> simp [cumDays, daysInMonth] at h4 ⊢ <;> omega

theorem minOrd_eq_zero (s : List Row)
    (h0 : ∃ r ∈ s, r.month = 1 ∧ r.day = 1 ∧ r.hour = 0) : minOrd s = 0 := by
  obtain ⟨r, hr, hm, hd, hh⟩ := h0
  apply foldr_min_of_zero_mem
  refine List.mem_map.mpr ⟨r, hr, ?_⟩
  unfold ordOf
  rw [hm, hd, hh]
  rfl

theorem maxOrd_eq_last (s : List Row) (hval : ∀ r ∈ s, validRow r)
    (h8 : ∃ r ∈ s, r.month = 12 ∧ r.day = 31 ∧ r.hour = 23) : maxOrd s = 8783 := by
  obtain ⟨r, hr, hm, hd, hh⟩ := h8
  apply Nat.le_antisymm
  · apply foldr_max_le
    intro x hx
    obtain ⟨r2, hr2, hx2⟩ := List.mem_map.mp hx
    rw [← hx2]
    exact ordOf_le_of_valid r2 (hval r2 hr2)
  · apply le_foldr_max
    refine List.mem_map.mpr ⟨r, hr, ?_⟩
    unfold ordOf
    rw [hm, hd, hh]
    rfl

theorem grid_full (s : List Row) (hval : ∀ r ∈ s, validRow r)
    (h0 : ∃ r ∈ s, r.month = 1 ∧ r.day = 1 ∧ r.hour = 0)
    (h8 : ∃ r ∈ s, r.month = 12 ∧ r.day = 31 ∧ r.hour = 23) :
    grid s = List.range' 0 8784 := by
  unfold grid
  rw [minOrd_eq_zero s h0, maxOrd_eq_last s hval h8]

theorem avgVals_length (qc : Bool) (F : FlagTable) (ranges : List (Nat × Nat))
    (s : List Row) : (avgVals qc F ranges s).length = (grid s).length := by
  unfold avgVals slotVals
  rw [gapFill_length, List.length_map]

theorem map_fst_zip_filter {α β : Type} (p : α → Bool) :
    ∀ (a : List α) (b : List β), a.length ≤ b.length →
      (((a.zip b).filter fun x => p x.1).map Prod.fst) = a.filter p
  | [], _, _ => rfl
  | _ :: _, [], h => by simp at h
  | x :: a, y :: b, h => by
    have hab : a.length ≤ b.length := by simpa using h
    rw [List.zip_cons_cons, List.filter_cons, List.filter_cons]
    cases hp : p x
    · simpa using map_fst_zip_filter p a b hab
    · simpa using map_fst_zip_filter p a b hab

theorem avgKeys_leap (qc : Bool) (F : FlagTable) (ranges : List (Nat × Nat))
    (s : List Row) : avgKeys qc F ranges true s = grid s := by
  unfold avgKeys getAverageYear
  simp only [if_pos rfl]
  exact List.map_fst_zip _ _ (by rw [avgVals_length])

theorem avgKeys_noleap (qc : Bool) (F : FlagTable) (ranges : List (Nat × Nat))
    (s : List Row) :
    avgKeys qc F ranges false s = (grid s).filter fun k => !isFeb29 k := by
  unfold avgKeys getAverageYear
  simp only [Bool.false_eq_true, if_false]
  exact map_fst_zip_filter (fun k => !isFeb29 k) (grid s) (avgVals qc F ranges s)
    (le_of_eq (avgVals_length qc F ranges s).symm)

theorem range_filter_feb29 :
    ((List.range' 0 8784).filter fun k => !isFeb29 k) =
      List.range' 0 1416 ++ List.range' 1440 7344 := by
  have hsplit : List.range' 0 8784 =
      (List.range' 0 1416 ++ List.range' 1416 24) ++ List.range' 1440 7344 := by
    rw [List.range'_append_1 0 1416 24]
    rw [show (24 + 1416 : Nat) = 1440 from rfl]
    rw [List.range'_append_1 0 1440 7344]
  rw [hsplit, List.filter_append, List.filter_append]
  have hfirst : (List.range' 0 1416).filter (fun k => !isFeb29 k) = List.range' 0 1416 := by
    apply List.filter_eq_self.mpr
    intro a ha
    obtain ⟨i, hi, rfl⟩ := List.mem_range'.mp ha
    simp [isFeb29]
    try omega
  have hmid : (List.range' 1416 24).filter (fun k => !isFeb29 k) = [] := by
    apply List.filter_eq_nil_iff.mpr
    intro a ha
    obtain ⟨i, hi, rfl⟩ := List.mem_range'.mp ha
    simp [isFeb29]
    try omega
  have hlast : (List.range' 1440 7344).filter (fun k => !isFeb29 k) = List.range' 1440 7344 := by
    apply List.filter_eq_self.mpr
    intro a ha
    obtain ⟨i, hi, rfl⟩ := List.mem_range'.mp ha
    simp [isFeb29]
    try omega
  rw [hfirst, hmid, hlast, List.append_nil]

theorem avgKeys_char (qc : Bool) (F : FlagTable) (ranges : List (Nat × Nat))
    (s : List Row) (hval : ∀ r ∈ s, validRow r)
    (h0 : ∃ r ∈ s, r.month = 1 ∧ r.day = 1 ∧ r.hour = 0)
    (h8 : ∃ r ∈ s, r.month = 12 ∧ r.day = 31 ∧ r.hour = 23) :
    avgKeys qc F ranges true s = List.range' 0 8784
    ∧ avgKeys qc F ranges false s = List.range' 0 1416 ++ List.range' 1440 7344 := by
  constructor
  · rw [avgKeys_leap, grid_full s hval h0 h8]
  · rw [avgKeys_noleap, grid_full s hval h0 h8, range_filter_feb29]

theorem chain'_succ_range' (s n : Nat) :
    List.Chain' (fun a b : Nat => b = a + 1) (List.range' s n) := by
  induction n generalizing s with
  | zero => exact List.chain'_nil
  | succ n ih =>
    rw [List.range'_succ]
    cases n with
    | zero => exact List.chain'_singleton s
    | succ n2 =>
      rw [List.range'_succ]
      exact List.chain'_cons.mpr ⟨rfl, by rw [← List.range'_succ]; exact ih (s + 1)⟩

/-- Claim C3, amended: for a series containing the first and last hour-of-year
keys (e.g. whole calendar years), the builder's output index is strictly
increasing with no duplicate hour-of-year keys and has length exactly 8784
with the leap day and 8760 without; the spacing is one hour between all
consecutive entries when the leap day is kept, while with the leap day
dropped each step is one hour except the single jump from Feb 28 23:00 (key
1415) to Mar 1 00:00 (key 1440) of the synthetic year. -/
theorem c3_average_year_index (qc : Bool) (F : FlagTable) (ranges : List (Nat × Nat))
    (s : List Row) (hval : ∀ r ∈ s, validRow r)
    (h0 : ∃ r ∈ s, r.month = 1 ∧ r.day = 1 ∧ r.hour = 0)
    (h8 : ∃ r ∈ s, r.month = 12 ∧ r.day = 31 ∧ r.hour = 23) :
    (avgKeys qc F ranges true s).length = 8784
    ∧ (avgKeys qc F ranges false s).length = 8760
    ∧ List.Chain' (fun a b : Nat => b = a + 1) (avgKeys qc F ranges true s)
    ∧ (avgKeys qc F ranges true s).Nodup
    ∧ List.Chain' (fun a b : Nat => a < b) (avgKeys qc F ranges false s)
    ∧ (avgKeys qc F ranges false s).Nodup
    ∧ List.Chain' (fun a b : Nat => b = a + 1 ∨ (a = 1415 ∧ b = 1440))
        (avgKeys qc F ranges false s) := by
  obtain ⟨hT, hF⟩ := avgKeys_char qc F ranges s hval h0 h8
  have hlast : (List.range' 0 1416).getLast? = some 1415 := by
    rw [show (1416 : Nat) = 1415 + 1 from rfl, List.range'_1_concat]
    rw [List.getLast?_concat]
  have hhead : (List.range' 1440 7344).head? = some 1440 := by
    rw [show (7344 : Nat) = 7343 + 1 from rfl, List.range'_succ]
    rfl
  have hmix : List.Chain' (fun a b : Nat => b = a + 1 ∨ (a = 1415 ∧ b = 1440))
      (List.range' 0 1416 ++ List.range' 1440 7344) := by
    apply List.chain'_append.mpr
    refine ⟨(chain'_succ_range' 0 1416).imp fun a b h => Or.inl h,
      (chain'_succ_range' 1440 7344).imp fun a b h => Or.inl h, ?_⟩
    intro x hx y hy
    rw [hlast] at hx
    rw [hhead] at hy
    cases hx
    cases hy
    exact Or.inr ⟨rfl, rfl⟩
  refine ⟨?_, ?_, ?_, ?_, ?_, ?_, ?_⟩
  · rw [hT, List.length_range']
  · rw [hF, List.length_append, List.length_range', List.length_range']
  · rw [hT]
    exact chain'_succ_range' 0 8784
  · rw [hT]
    exact List.nodup_range' 0 8784
  · rw [hF]
    exact hmix.imp fun a b h => by rcases h with h | ⟨h1, h2⟩ <;> omega
  · rw [hF]
    have hlt : List.Chain' (fun a b : Nat => a < b)
        (List.range' 0 1416 ++ List.range' 1440 7344) :=
      hmix.imp fun a b h => by rcases h with h | ⟨h1, h2⟩ <;> omega
    exact (List.chain'_iff_pairwise.mp hlt).nodup
  · rw [hF]
    exact hmix

/-- Witness for the amended C3 on the two-row span series. -/
theorem c3_average_year_index_witness :
    (demoSpan.all fun r => decide (validRow r)) = true ∧
      (avgKeys false tableQC [] true demoSpan).length = 8784 :=
  ⟨by decide,
    (c3_average_year_index false tableQC [] demoSpan (by decide) (by decide)
      (by decide)).1⟩

/-- Claim C3, counterexample: on the two-row span series the leap-day-excluded
output has length 8760 but its index is not uniformly spaced — the claimed
one-hour step fails at the boundary left by dropping Feb 29 (key 1415 is
followed by key 1440, a 25-hour jump). -/
theorem c3_uniform_spacing_counterexample :
    (avgKeys false tableQC [] false demoSpan).length = 8760
    ∧ ¬ List.Chain' (fun a b : Nat => b = a + 1)
        (avgKeys false tableQC [] false demoSpan) := by
  obtain ⟨hT, hF⟩ := avgKeys_char false tableQC [] demoSpan (by decide) (by decide)
    (by decide)
  constructor
  · rw [hF, List.length_append, List.length_range', List.length_range']
  · rw [hF]
    intro hch
    have hbound := (List.chain'_append.mp hch).2.2
    have hlast : (List.range' 0 1416).getLast? = some 1415 := by
      rw [show (1416 : Nat) = 1415 + 1 from rfl, List.range'_1_concat]
      rw [List.getLast?_concat]
    have hhead : (List.range' 1440 7344).head? = some 1440 := by
      rw [show (7344 : Nat) = 7343 + 1 from rfl, List.range'_succ]
      rfl
    have := hbound 1415 (by rw [hlast]; rfl) 1440 (by rw [hhead]; rfl)
    omega
